import Mathlib

/-!
Verification of the `out` operation of the concourse-chartmuseum-resource
repository (src/out.ts, src/index.ts), via a shallow embedding in Lean.

External effects (filesystem stats, file contents, subprocess exit codes
and their textual output, HTTP responses, the semver library's verdict)
are inputs supplied by an `Env` record; the embedding translates the
control flow and the string processing of the TypeScript source and
records the externally observable actions (subprocess spawns and HTTP
calls) as an event trace.
-/

namespace ChartMuseum

/-! ## String utilities translated from the JavaScript string operations -/

/-- Whitespace characters that can occur inside a single line and are
matched by the JavaScript regex class `\s` there (a line produced by
splitting on `\r?\n` cannot contain a line feed). -/
def wsChar (c : Char) : Bool :=
  c = ' ' || c = '\t' || c = '\r' || c = '\x0b' || c = '\x0c'

/-- Drop the maximal run of leading whitespace (the greedy `\s*`). -/
def wsDrop : List Char → List Char
  | [] => []
  | c :: cs => if wsChar c then wsDrop cs else c :: cs

theorem wsDrop_length_le (l : List Char) : (wsDrop l).length ≤ l.length := by
  induction l with
  | nil => simp [wsDrop]
  | cons c cs ih =>
    simp only [wsDrop]
    split
    · exact Nat.le_succ_of_le ih
    · simp

/-- `s.split(/\r?\n/)` from JavaScript: split into lines at each `\n`,
consuming a `\r` that immediately precedes it. -/
def splitLinesGo : List Char → List Char → List (List Char)
  | [], acc => [acc.reverse]
  | '\r' :: '\n' :: cs, acc => acc.reverse :: splitLinesGo cs []
  | '\n' :: cs, acc => acc.reverse :: splitLinesGo cs []
  | c :: cs, acc => splitLinesGo cs (c :: acc)

def splitLines (s : String) : List (List Char) :=
  splitLinesGo s.toList []

/-- `s.replace(/\r?\n/, "")` from JavaScript: remove only the first
newline sequence (the regex has no global flag). -/
def rmFirstNlGo : List Char → List Char
  | [] => []
  | '\r' :: '\n' :: cs => cs
  | '\n' :: cs => cs
  | c :: cs => c :: rmFirstNlGo cs

def rmFirstNewline (s : String) : String :=
  String.mk (rmFirstNlGo s.toList)

/-- `hay.includes(needle)` on strings: some suffix of `hay` starts with
`needle`. -/
def containsSeq (needle hay : List Char) : Bool :=
  hay.tails.any (fun t => List.isPrefixOf needle t)

/-- `line.split(/version:\s*/)`: left-to-right scan; at each occurrence of
the literal `version:` followed by a greedy run of whitespace, a segment
boundary is produced and the matched text is consumed. The `fuel`
argument, always passed the input length (each step consumes at least one
character, so it is never exhausted), keeps the recursion structural. -/
def splitVerGo : Nat → List Char → List Char → List (List Char)
  | _, [], acc => [acc.reverse]
  | 0, l, acc => [acc.reverse ++ l]
  | fuel + 1, c :: cs, acc =>
    if List.isPrefixOf ("version:".toList) (c :: cs) then
      acc.reverse :: splitVerGo fuel (wsDrop (cs.drop 7)) []
    else
      splitVerGo fuel cs (c :: acc)

def splitVer (l : List Char) : List (List Char) :=
  splitVerGo l.length l []

/-- Strip an expected leading segment, returning the remainder. -/
def stripPre : List Char → List Char → Option (List Char)
  | [], l => some l
  | _ :: _, [] => none
  | p :: ps, c :: cs => if p = c then stripPre ps cs else none

/-- Strip an expected trailing segment, returning the remainder. -/
def stripSuf (suf l : List Char) : Option (List Char) :=
  (stripPre suf.reverse l.reverse).map List.reverse

def gpgKeyPre : List Char := "gpg: key ".toList

def gpgKeySuf : List Char := ": secret key imported".toList

/-- The anchored regex `/^gpg\:\ key\ (.*?)\: secret\ key\ imported$/`
from `importGpgKey`: the line must consist of the literal head, an
arbitrary captured middle, and the literal tail; the capture is returned. -/
def matchKeyLine (l : List Char) : Option (List Char) :=
  match stripPre gpgKeyPre l with
  | none => none
  | some rest => stripSuf gpgKeySuf rest

theorem stripPre_eq_some_iff (p l r : List Char) :
    stripPre p l = some r ↔ l = p ++ r := by
  induction p generalizing l with
  | nil => simp [stripPre]
  | cons x xs ih =>
    cases l with
    | nil => simp [stripPre]
    | cons c cs =>
      simp only [stripPre, List.cons_append, List.cons.injEq]
      split
      · rename_i hxc
        subst hxc
        rw [ih]
        simp
      · rename_i hxc
        refine iff_of_false (by simp) ?_
        rintro ⟨h1, h2⟩
        exact hxc h1.symm

theorem stripSuf_eq_some_iff (s l r : List Char) :
    stripSuf s l = some r ↔ l = r ++ s := by
  simp only [stripSuf, Option.map_eq_some']
  constructor
  · rintro ⟨a, ha, rfl⟩
    rw [stripPre_eq_some_iff] at ha
    have h2 := congrArg List.reverse ha
    simpa using h2
  · rintro rfl
    refine ⟨r.reverse, ?_, by simp⟩
    rw [stripPre_eq_some_iff]
    simp

theorem matchKeyLine_eq_some_iff (l id : List Char) :
    matchKeyLine l = some id ↔ l = gpgKeyPre ++ id ++ gpgKeySuf := by
  simp only [matchKeyLine]
  cases h : stripPre gpgKeyPre l with
  | none =>
    refine iff_of_false (by simp) ?_
    intro hc
    have h2 : stripPre gpgKeyPre l = some (id ++ gpgKeySuf) := by
      rw [stripPre_eq_some_iff, hc, List.append_assoc]
    rw [h] at h2
    exact Option.noConfusion h2
  | some rest =>
    rw [stripPre_eq_some_iff] at h
    subst h
    show stripSuf gpgKeySuf rest = some id ↔
      gpgKeyPre ++ rest = gpgKeyPre ++ id ++ gpgKeySuf
    rw [stripSuf_eq_some_iff, List.append_assoc]
    exact ⟨fun hr => by rw [hr], fun hr => List.append_cancel_left hr⟩

/-! ## Data model (src/index.ts request shapes, JSON values, HTTP pieces) -/

/-- Result of `fs.lstat` on a path: a regular file, a directory, something
else that exists (`isFile` and `isDirectory` both false), or a missing path
(`lstat` rejects, which surfaces as the generic top-level failure). -/
inductive FileKind
  | file
  | dir
  | other
  | missing
deriving DecidableEq

/-- A JSON value as relevant to the response-body checks (the code only
distinguishes `null`/absent, the boolean `true`, and everything else). -/
inductive JsVal
  | null
  | bool (b : Bool)
  | str (s : String)
  | num (n : Int)
deriving DecidableEq

/-- HTTP headers the caller constructs. The `Authorization` value keeps its
username/password inputs abstract (base64 transport encoding is outside the
embedding); the other two carry the exact strings the code builds. -/
inductive Header
  | authorization (user pass : String)
  | contentLength (value : String)
  | contentDisposition (value : String)
deriving DecidableEq

/-- The POST body: a multipart form with one field carrying the archive
stream (Harbor dialect) or the raw archive byte stream (plain dialect). -/
inductive UploadBody
  | multipart (fieldName file : String)
  | rawStream (file : String)
deriving DecidableEq

structure ShapedUpload where
  body : UploadBody
  extraHeaders : List Header
deriving DecidableEq

/-- Decoded JSON body of the upload POST response (fields `error`, `saved`;
`none` models an absent field, i.e. JavaScript `undefined`). -/
structure PostJson where
  error : Option JsVal
  saved : Option JsVal
deriving DecidableEq

/-- The `metadata` object nested in the Harbor-dialect chart response. -/
structure ChartMeta where
  version : String
  digest : String
  created : String
  description : String
deriving DecidableEq

/-- Decoded JSON body of the metadata GET (`chartJson`). Holds both the
flat fields read by the plain dialect and the nested `metadata` object read
by the Harbor dialect; `appVersion` is read from the top level in both. -/
structure ChartJsonResp where
  version : String
  digest : String
  created : String
  description : String
  appVersion : String
  home : String
  tillerVersion : String
  metadata : ChartMeta
deriving DecidableEq

structure VersionPair where
  version : String
  digest : String
deriving DecidableEq

structure MetaEntry where
  name : String
  value : String
deriving DecidableEq

/-- `OutResponse` from src/index.ts. -/
structure OutResponseM where
  version : VersionPair
  metadata : List MetaEntry
deriving DecidableEq

/-- One auxiliary Helm repository from `params.dependency_repos`. -/
structure DepRepo where
  server_url : String
  basic_auth_username : Option String
  basic_auth_password : Option String
  tls_ca_cert : Option String
  tls_client_cert : Option String
  tls_client_key : Option String
deriving DecidableEq

/-- `source` of an `OutRequest` (src/index.ts, fields the pipeline reads). -/
structure OutSource where
  server_url : String
  chart_name : String
  version_range : Option String
  basic_auth_username : Option String
  basic_auth_password : Option String
  harbor_api : Option Bool
deriving DecidableEq

/-- `params` of an `OutRequest` (src/index.ts). `dependency_repos` is the
ordered list of name/repository pairs `Object.entries` iterates over. -/
structure OutParams where
  chart : String
  sign : Option Bool
  key_data : Option String
  key_file : Option String
  key_passphrase : Option String
  version : Option String
  version_file : Option String
  force : Option Bool
  dependency_update : Option Bool
  dependency_repos : Option (List (String × DepRepo))
deriving DecidableEq

structure OutRequestM where
  source : OutSource
  params : OutParams
deriving DecidableEq

/-- External world supplied to one `out` run: filesystem answers,
subprocess results, the semver library's verdict, and HTTP responses. -/
structure Env where
  versionFileKind : FileKind
  versionFileContents : String
  satisfies : String → String → Bool
  repoAddOk : String → Bool
  chartKind : FileKind
  chartName : String
  chartDeclaredVersion : String
  tmpDirPath : String
  gpgExitCode : Int
  gpgStderr : String
  packageOk : Bool
  chartFileSize : Nat
  inspectOk : Bool
  inspectStdout : String
  postStatus : Nat
  postJson : PostJson
  getOk : Bool
  chartJson : ChartJsonResp

/-- Externally observable actions of one run, in order: subprocess spawns
and HTTP calls (plus the version-file read, to mark that branch). -/
inductive Event
  | readVersionFile
  | helmRepoAdd (name url : String)
  | mkGpgHome
  | gpgImport
  | deleteGpgHome
  | helmPackage
  | helmInspect
  | httpPost (url : String) (headers : List Header) (body : UploadBody)
  | httpGet (url : String) (headers : List Header)
deriving DecidableEq

/-- Final fate of the process: the JSON success payload, or `process.exit`
with a code (uncaught rejections surface as the top-level code 1). -/
inductive Outcome
  | success (resp : OutResponseM)
  | exit (code : Nat)
deriving DecidableEq

/-! ## Operations translated from src/index.ts and src/out.ts -/

/-- `createFetchHeaders` (src/index.ts): adds the Basic `Authorization`
header only when both credentials are present and truthy (nonempty). -/
def createFetchHeaders (req : OutRequestM) : List Header :=
  match req.source.basic_auth_username, req.source.basic_auth_password with
  | some u, some p =>
    if u ≠ "" ∧ p ≠ "" then [Header.authorization u p] else []
  | _, _ => []

/-- `importGpgKey` (src/out.ts lines 42-80), as a function of the spawned
command's exit code and accumulated stderr text: nonzero exit is the
import-failure error; otherwise the first stderr line containing the
substring `secret key imported` is located, and that line must match the
anchored key-id regex, with two further distinct errors. -/
inductive ImportError
  | importFailed (code : Int)
  | lineNotFound
  | regexFailure
deriving DecidableEq

def importGpgKeyResult (code : Int) (stderrText : String) : Except ImportError String :=
  if code ≠ 0 then Except.error (ImportError.importFailed code)
  else
    match (splitLines stderrText).find?
        (fun l => containsSeq ("secret key imported".toList) l) with
    | none => Except.error ImportError.lineNotFound
    | some l =>
      match matchKeyLine l with
      | none => Except.error ImportError.regexFailure
      | some id => Except.ok (String.mk id)

/-- Scan for the characters after the last `/`. -/
def lastSegment : List Char → List Char → List Char
  | [], acc => acc.reverse
  | '/' :: cs, _ => lastSegment cs []
  | c :: cs, acc => lastSegment cs (c :: acc)

/-- `path.basename`: the last `/`-separated component, ignoring trailing
separators (archive paths here never consist of separators only). -/
def baseName (s : String) : String :=
  String.mk (lastSegment (List.reverse (List.dropWhile (fun c => c = '/') s.toList.reverse)) [])

/-- Upload payload shaping (src/out.ts lines 282-291): multipart form for
the Harbor dialect, raw stream plus explicit `Content-length` and
`Content-Disposition` headers otherwise. -/
def shapeUpload (harborApi : Option Bool) (chartFile : String) (size : Nat) : ShapedUpload :=
  if harborApi = some true then
    { body := UploadBody.multipart "chart" chartFile, extraHeaders := [] }
  else
    { body := UploadBody.rawStream chartFile,
      extraHeaders := [
        Header.contentLength (toString size),
        Header.contentDisposition
          ("attachment; filename=\"" ++ baseName chartFile ++ "\"")] }

/-- JavaScript loose `!= null`: true unless the field is absent or null. -/
def looseNonNull : Option JsVal → Bool
  | none => false
  | some JsVal.null => false
  | some _ => true

/-- Upload response checks (src/out.ts lines 313-325): non-201 status exits
with the status code; then a non-null `error` field exits 602; then a
`saved` field not strictly `true` exits 603; `none` means proceed. -/
def handlePostResult (status : Nat) (json : PostJson) : Option Nat :=
  if status = 201 then
    (if looseNonNull json.error then some 602
     else if json.saved = some (JsVal.bool true) then none
     else some 603)
  else some status

/-- Post-upload verification and response assembly (src/out.ts lines
347-393): the dialect-appropriate version field must equal the effective
version (else exit 203); on match the dialect-appropriate `OutResponse`
is assembled. -/
def verifyAndRespond (harborApi : Option Bool) (version : Option String)
    (cj : ChartJsonResp) : Except Nat OutResponseM :=
  if harborApi = some true then
    if version ≠ some cj.metadata.version then Except.error 203
    else Except.ok {
      version := { version := cj.metadata.version, digest := cj.metadata.digest },
      metadata := [
        { name := "created", value := cj.metadata.created },
        { name := "description", value := cj.metadata.description },
        { name := "appVersion", value := cj.appVersion }] }
  else
    if version ≠ some cj.version then Except.error 203
    else Except.ok {
      version := { version := cj.version, digest := cj.digest },
      metadata := [
        { name := "created", value := cj.created },
        { name := "description", value := cj.description },
        { name := "appVersion", value := cj.appVersion },
        { name := "home", value := cj.home },
        { name := "tillerVersion", value := cj.tillerVersion }] }

/-- Version resolution (src/out.ts lines 111-118): start from
`params.version`; if `params.version_file` is set and `lstat` reports a
regular file, its contents with the first newline removed replace it; if
the path is missing, `lstat` rejects (top-level exit 1); any other kind of
existing path silently keeps the earlier value. -/
def resolveVersionEv (req : OutRequestM) (env : Env) :
    List Event × Except Outcome (Option String) :=
  match req.params.version_file with
  | none => ([], Except.ok req.params.version)
  | some _ =>
    match env.versionFileKind with
    | FileKind.file =>
      ([Event.readVersionFile],
       Except.ok (some (rmFirstNewline env.versionFileContents)))
    | FileKind.missing => ([], Except.error (Outcome.exit 1))
    | _ => ([], Except.ok req.params.version)

/-- `helm repo add` loop (src/out.ts lines 128-182): one spawn per entry,
first failure exits 193 and later entries are not attempted. -/
def processDepRepos : List (String × DepRepo) → (String → Bool) → List Event × Bool
  | [], _ => ([], true)
  | (name, repo) :: rest, ok =>
    if ok name then
      let r := processDepRepos rest ok
      (Event.helmRepoAdd name repo.server_url :: r.1, r.2)
    else ([Event.helmRepoAdd name repo.server_url], false)

/-- The signing block (src/out.ts lines 201-235), entered only in the
directory branch when `sign === true`: missing both key sources exits 332
before anything is spawned; otherwise the ephemeral keyring home is
created, the import runs, and the keyring is deleted in the `finally`
block whether the import succeeded or threw (a throw surfaces as the
top-level exit 1). On success the extra `helm package` switches are
implied by the returned event list. -/
def signArgs (req : OutRequestM) (env : Env) :
    Except (List Event × Outcome) (List Event) :=
  if req.params.sign = some true then
    if req.params.key_data = none ∧ req.params.key_file = none then
      Except.error ([], Outcome.exit 332)
    else
      match importGpgKeyResult env.gpgExitCode env.gpgStderr with
      | Except.ok _ =>
        Except.ok [Event.mkGpgHome, Event.gpgImport, Event.deleteGpgHome]
      | Except.error _ =>
        Except.error ([Event.mkGpgHome, Event.gpgImport, Event.deleteGpgHome],
                      Outcome.exit 1)
  else Except.ok []

/-- Inspection parse (src/out.ts lines 269-276): the first stdout line
starting with `version:` is split on `/version:\s*/` and element 1 taken
(outer `none`: no such line, exit 121; inner `none`: element 1 absent,
JavaScript `undefined`). -/
def inspectVersionOpt (stdout : String) : Option (Option String) :=
  match (splitLines stdout).find?
      (fun l => List.isPrefixOf ("version:".toList) l) with
  | none => none
  | some line => some (((splitVer line)[1]?).map (fun cs => String.mk cs))

/-- JavaScript string interpolation of a possibly-undefined value. -/
def jsShowOpt : Option String → String
  | some s => s
  | none => "undefined"

/-- Upload and verification (src/out.ts lines 282-393), after the archive
path and the (inspection-refreshed) version are fixed. -/
def uploadStage (req : OutRequestM) (env : Env) (evs : List Event)
    (version : Option String) (chartFile : String) : List Event × Outcome :=
  let sh := shapeUpload req.source.harbor_api chartFile env.chartFileSize
  let postUrl := req.source.server_url ++
    (if req.params.force = some true then "?force=true" else "")
  let evs2 := evs ++ [Event.httpPost postUrl (createFetchHeaders req ++ sh.extraHeaders) sh.body]
  match handlePostResult env.postStatus env.postJson with
  | some code => (evs2, Outcome.exit code)
  | none =>
    let getUrl := req.source.server_url ++ "/" ++ req.source.chart_name ++ "/" ++
      jsShowOpt version
    let evs3 := evs2 ++ [Event.httpGet getUrl (createFetchHeaders req)]
    if env.getOk then
      match verifyAndRespond req.source.harbor_api version env.chartJson with
      | Except.error c => (evs3, Outcome.exit c)
      | Except.ok resp => (evs3, Outcome.success resp)
    else (evs3, Outcome.exit 710)

/-- Inspection of the built or given archive (src/out.ts lines 262-280):
a failing `helm inspect` exits 120; no `version:` line exits 121; and the
parsed value unconditionally replaces the previously resolved version. -/
def afterPackage (req : OutRequestM) (env : Env) (evs : List Event)
    (chartFile : String) : List Event × Outcome :=
  let evs2 := evs ++ [Event.helmInspect]
  if env.inspectOk then
    match inspectVersionOpt env.inspectStdout with
    | none => (evs2, Outcome.exit 121)
    | some v => uploadStage req env evs2 v chartFile
  else (evs2, Outcome.exit 120)

/-- The chart-location branch (src/out.ts lines 184-260): a directory is
packaged (with optional signing) into the temp directory under the
predicted archive name; a regular file is used verbatim; anything else
that exists exits 110; a missing path makes `lstat` reject (exit 1). -/
def chartStage (req : OutRequestM) (env : Env) (evs : List Event)
    (version : Option String) : List Event × Outcome :=
  match env.chartKind with
  | FileKind.missing => (evs, Outcome.exit 1)
  | FileKind.other => (evs, Outcome.exit 110)
  | FileKind.file => afterPackage req env evs req.params.chart
  | FileKind.dir =>
    match signArgs req env with
    | Except.error (sevs, o) => (evs ++ sevs, o)
    | Except.ok sevs =>
      let evs2 := evs ++ sevs ++ [Event.helmPackage]
      if env.packageOk then
        let chartFile := env.tmpDirPath ++ "/" ++ env.chartName ++ "-" ++
          (version.getD env.chartDeclaredVersion) ++ ".tgz"
        afterPackage req env evs2 chartFile
      else (evs2, Outcome.exit 121)

/-- Dependency-repository registration and onward (src/out.ts lines
128-182 then 184-): a failing `helm repo add` exits 193; already
registered repositories are not rolled back. -/
def outAfterRange (req : OutRequestM) (env : Env) (evs0 : List Event)
    (version : Option String) : List Event × Outcome :=
  let r := processDepRepos (req.params.dependency_repos.getD []) env.repoAddOk
  if r.2 then chartStage req env (evs0 ++ r.1) version
  else (evs0 ++ r.1, Outcome.exit 193)

/-- Range gate and the rest of the pipeline, after version resolution
(src/out.ts lines 119-125): with a resolved version and a configured
`source.version_range`, a failing semver check exits 104 before the
dependency-repository loop, packaging, or any network call. -/
def outFromVersion (req : OutRequestM) (env : Env) (evs0 : List Event)
    (version : Option String) : List Event × Outcome :=
  match version, req.source.version_range with
  | some v, some r =>
    if env.satisfies v r then outAfterRange req env evs0 (some v)
    else (evs0, Outcome.exit 104)
  | _, _ => outAfterRange req env evs0 version

/-- The `out` operation (src/out.ts): version resolution, range gate,
dependency registration, packaging/signing, inspection, upload,
verification. -/
def out (req : OutRequestM) (env : Env) : List Event × Outcome :=
  match resolveVersionEv req env with
  | (evs0, Except.error o) => (evs0, o)
  | (evs0, Except.ok version) => outFromVersion req env evs0 version

/-! ## Trace lemmas -/

theorem resolveVersionEv_events (req : OutRequestM) (env : Env) :
    ∀ e ∈ (resolveVersionEv req env).1, e = Event.readVersionFile := by
  intro e he
  cases hvf : req.params.version_file with
  | none => simp [resolveVersionEv, hvf] at he
  | some q =>
    cases hk : env.versionFileKind <;>
      simp_all [resolveVersionEv, hvf, hk]

/-- `uploadStage` only appends HTTP events to the incoming trace. -/
theorem uploadStage_trace (req : OutRequestM) (env : Env) (evs : List Event)
    (version : Option String) (chartFile : String) :
    ∃ t, (uploadStage req env evs version chartFile).1 = evs ++ t ∧
      Event.gpgImport ∉ t ∧ Event.mkGpgHome ∉ t ∧
      Event.deleteGpgHome ∉ t ∧ Event.helmPackage ∉ t := by
  cases h : handlePostResult env.postStatus env.postJson with
  | some code =>
    refine ⟨[Event.httpPost
        (req.source.server_url ++ (if req.params.force = some true then "?force=true" else ""))
        (createFetchHeaders req ++ (shapeUpload req.source.harbor_api chartFile env.chartFileSize).extraHeaders)
        (shapeUpload req.source.harbor_api chartFile env.chartFileSize).body],
      ?_, by simp, by simp, by simp, by simp⟩
    simp [uploadStage, h]
  | none =>
    cases hg : env.getOk with
    | false =>
      refine ⟨[Event.httpPost
          (req.source.server_url ++ (if req.params.force = some true then "?force=true" else ""))
          (createFetchHeaders req ++ (shapeUpload req.source.harbor_api chartFile env.chartFileSize).extraHeaders)
          (shapeUpload req.source.harbor_api chartFile env.chartFileSize).body,
        Event.httpGet
          (req.source.server_url ++ "/" ++ req.source.chart_name ++ "/" ++ jsShowOpt version)
          (createFetchHeaders req)],
        ?_, by simp, by simp, by simp, by simp⟩
      simp [uploadStage, h, hg]
    | true =>
      cases hv : verifyAndRespond req.source.harbor_api version env.chartJson with
      | error c =>
        refine ⟨[Event.httpPost
            (req.source.server_url ++ (if req.params.force = some true then "?force=true" else ""))
            (createFetchHeaders req ++ (shapeUpload req.source.harbor_api chartFile env.chartFileSize).extraHeaders)
            (shapeUpload req.source.harbor_api chartFile env.chartFileSize).body,
          Event.httpGet
            (req.source.server_url ++ "/" ++ req.source.chart_name ++ "/" ++ jsShowOpt version)
            (createFetchHeaders req)],
          ?_, by simp, by simp, by simp, by simp⟩
        simp [uploadStage, h, hg, hv]
      | ok resp =>
        refine ⟨[Event.httpPost
            (req.source.server_url ++ (if req.params.force = some true then "?force=true" else ""))
            (createFetchHeaders req ++ (shapeUpload req.source.harbor_api chartFile env.chartFileSize).extraHeaders)
            (shapeUpload req.source.harbor_api chartFile env.chartFileSize).body,
          Event.httpGet
            (req.source.server_url ++ "/" ++ req.source.chart_name ++ "/" ++ jsShowOpt version)
            (createFetchHeaders req)],
          ?_, by simp, by simp, by simp, by simp⟩
        simp [uploadStage, h, hg, hv]

/-- `afterPackage` only appends the inspect event and HTTP events. -/
theorem afterPackage_trace (req : OutRequestM) (env : Env) (evs : List Event)
    (chartFile : String) :
    ∃ t, (afterPackage req env evs chartFile).1 = evs ++ t ∧
      Event.gpgImport ∉ t ∧ Event.mkGpgHome ∉ t ∧
      Event.deleteGpgHome ∉ t ∧ Event.helmPackage ∉ t := by
  cases hi : env.inspectOk with
  | false =>
    refine ⟨[Event.helmInspect], ?_, by simp, by simp, by simp, by simp⟩
    simp [afterPackage, hi]
  | true =>
    cases hv : inspectVersionOpt env.inspectStdout with
    | none =>
      refine ⟨[Event.helmInspect], ?_, by simp, by simp, by simp, by simp⟩
      simp [afterPackage, hi, hv]
    | some v =>
      obtain ⟨t, ht, hg1, hg2, hg3, hg4⟩ :=
        uploadStage_trace req env (evs ++ [Event.helmInspect]) v chartFile
      refine ⟨[Event.helmInspect] ++ t, ?_, ?_, ?_, ?_, ?_⟩
      · rw [afterPackage]
        simp only [hi, if_true, hv]
        rw [ht]
        simp
      · simp [hg1]
      · simp [hg2]
      · simp [hg3]
      · simp [hg4]

/-- With no version file, no range constraint and no dependency repos, a
run is the chart stage on an empty trace. -/
theorem out_reach_chart (req : OutRequestM) (env : Env)
    (h1 : req.params.version_file = none)
    (h2 : req.source.version_range = none)
    (h3 : req.params.dependency_repos = none) :
    out req env = chartStage req env [] req.params.version := by
  cases hv : req.params.version <;>
    simp [out, resolveVersionEv, h1, outFromVersion, h2, h3, outAfterRange,
      processDepRepos, hv]

/-- Additionally: with a regular-file chart source and a successful
inspection parse, a run is the upload stage on the inspected version. -/
theorem out_reach_upload (req : OutRequestM) (env : Env) (w : String)
    (h1 : req.params.version_file = none)
    (h2 : req.source.version_range = none)
    (h3 : req.params.dependency_repos = none)
    (h4 : env.chartKind = FileKind.file)
    (h5 : env.inspectOk = true)
    (h6 : inspectVersionOpt env.inspectStdout = some (some w)) :
    out req env = uploadStage req env [Event.helmInspect] (some w) req.params.chart := by
  rw [out_reach_chart req env h1 h2 h3]
  simp [chartStage, h4, afterPackage, h5, h6]

/-! ## Concrete request/environment fixtures used by the closed theorems -/

def srcPlain : OutSource := {
  server_url := "http://cm/api/charts",
  chart_name := "mychart",
  version_range := none,
  basic_auth_username := none,
  basic_auth_password := none,
  harbor_api := none }

def prmBase : OutParams := {
  chart := "chart-dir",
  sign := none,
  key_data := none,
  key_file := none,
  key_passphrase := none,
  version := none,
  version_file := none,
  force := none,
  dependency_update := none,
  dependency_repos := none }

def cjBase : ChartJsonResp := {
  version := "2.0.0",
  digest := "d1",
  created := "c1",
  description := "desc",
  appVersion := "a1",
  home := "h1",
  tillerVersion := "t1",
  metadata := { version := "2.0.0", digest := "d1", created := "c1", description := "desc" } }

def envBase : Env := {
  versionFileKind := FileKind.missing,
  versionFileContents := "",
  satisfies := fun _ _ => true,
  repoAddOk := fun _ => true,
  chartKind := FileKind.file,
  chartName := "mychart",
  chartDeclaredVersion := "0.1.0",
  tmpDirPath := "/tmp/pkg",
  gpgExitCode := 0,
  gpgStderr := "gpg: key ABC123: secret key imported",
  packageOk := true,
  chartFileSize := 512,
  inspectOk := true,
  inspectStdout := "name: mychart\nversion: 2.0.0\n",
  postStatus := 201,
  postJson := { error := none, saved := some (JsVal.bool true) },
  getOk := true,
  chartJson := cjBase }

/-- Request with an explicit version parameter `1.0.0` (and an archive
whose inspected version will be `2.0.0`, see `envBase`). -/
def c1Req : OutRequestM := { source := srcPlain, params := { prmBase with version := some "1.0.0" } }

/-- Request with both an explicit version parameter and a version file. -/
def c2Req : OutRequestM := {
  source := srcPlain,
  params := { prmBase with version := some "9.9.9", version_file := some "version.txt" } }

def c2Env : Env := { envBase with
  versionFileKind := FileKind.file,
  versionFileContents := "1.0.0\n\n" }

/-- Request with explicit version `2.0.0` against range `^1.0.0`. -/
def c3Req : OutRequestM := {
  source := { srcPlain with version_range := some "^1.0.0" },
  params := { prmBase with version := some "2.0.0" } }

/-- Environment in which the semver library rejects the candidate. -/
def c3Env : Env := { envBase with satisfies := fun _ _ => false }

/-- Signing request carrying BOTH `key_data` and `key_file`. -/
def c4Req : OutRequestM := {
  source := srcPlain,
  params := { prmBase with
    sign := some true, key_data := some "KEYDATA", key_file := some "mykey.asc" } }

/-- Signing request carrying neither `key_data` nor `key_file`. -/
def c4bReq : OutRequestM := { source := srcPlain, params := { prmBase with sign := some true } }

def c4Env : Env := { envBase with chartKind := FileKind.dir }

/-- gpg stderr whose first line containing `secret key imported` does not
match the anchored key-id regex, while a later line does. -/
def c6Stderr : String := "foo secret key imported\ngpg: key ABC: secret key imported"

def c8Env : Env := { envBase with postStatus := 409 }

/-! ## Claim-side definitions (stated from the claims' words, for
refutation by comparison with the source-derived definitions) -/

/-- Whitespace in the sense of `String.prototype.trim`. -/
def trimChar (c : Char) : Bool :=
  c = ' ' || c = '\t' || c = '\n' || c = '\r' || c = '\x0b' || c = '\x0c'

/-- JavaScript `s.trim()`: leading and trailing whitespace removed. -/
def jsTrim (s : String) : String :=
  String.mk (((s.toList.dropWhile trimChar).reverse.dropWhile trimChar).reverse)

/-- Stated from the claim's words (C2): version resolution in which the
version file's TRIMMED contents are authoritative. -/
def resolveVersionTrimmed (req : OutRequestM) (env : Env) : Option String :=
  match req.params.version_file with
  | none => req.params.version
  | some _ =>
    if env.versionFileKind = FileKind.file
    then some (jsTrim env.versionFileContents)
    else req.params.version

/-- Stated from the claim's words (C6): scan the diagnostic output
line-by-line for the first line matching the key pattern and capture the
identifier. -/
def claimKeyCapture (stderrText : String) : Option String :=
  (splitLines stderrText).findSome? (fun l => (matchKeyLine l).map (fun cs => String.mk cs))

/-! ## Claim theorems -/

/-- C1, counterexample: with the explicit version parameter `1.0.0` and an
archive whose inspection reports `2.0.0`, the run does not abort on the
mismatch: it completes successfully, publishing and verifying against the
inspected `2.0.0`. This refutes "any mismatch between a previously
resolved version and the inspected version is fatal". -/
theorem c1_mismatch_not_fatal :
    (resolveVersionEv c1Req envBase).2 = Except.ok (some "1.0.0") ∧
    inspectVersionOpt envBase.inspectStdout = some (some "2.0.0") ∧
    (out c1Req envBase).2 = Outcome.success {
      version := { version := "2.0.0", digest := "d1" },
      metadata := [
        { name := "created", value := "c1" },
        { name := "description", value := "desc" },
        { name := "appVersion", value := "a1" },
        { name := "home", value := "h1" },
        { name := "tillerVersion", value := "t1" }] } :=
  ⟨rfl, rfl, rfl⟩

/-- C1, amended: once an archive is inspected, the parsed version replaces
any previously resolved version without comparison, and the rest of the
pipeline (upload, verification) runs with the inspected version; a
differing earlier resolution is silently discarded, not fatal. -/
theorem c1_inspection_overwrites (req : OutRequestM) (env : Env) (v w : String)
    (_hv : req.params.version = some v)
    (h1 : req.params.version_file = none)
    (h2 : req.source.version_range = none)
    (h3 : req.params.dependency_repos = none)
    (h4 : env.chartKind = FileKind.file)
    (h5 : env.inspectOk = true)
    (h6 : inspectVersionOpt env.inspectStdout = some (some w))
    (_hne : v ≠ w) :
    out req env = uploadStage req env [Event.helmInspect] (some w) req.params.chart :=
  out_reach_upload req env w h1 h2 h3 h4 h5 h6

/-- C1, witness for the amended theorem at the concrete fixture. -/
theorem c1_inspection_overwrites_witness :
    out c1Req envBase = uploadStage c1Req envBase [Event.helmInspect] (some "2.0.0") "chart-dir" :=
  c1_inspection_overwrites c1Req envBase "1.0.0" "2.0.0"
    rfl rfl rfl rfl rfl rfl rfl (by decide)

/-- C2, counterexample: for file contents `"1.0.0\n\n"` the code uses
`"1.0.0\n"` (only the first newline is removed), not the trimmed contents
`"1.0.0"` the claim prescribes. -/
theorem c2_not_trimmed :
    (resolveVersionEv c2Req c2Env).2 = Except.ok (some "1.0.0\n") ∧
    resolveVersionTrimmed c2Req c2Env = some "1.0.0" ∧
    ("1.0.0\n" : String) ≠ "1.0.0" :=
  ⟨rfl, rfl, by decide⟩

/-- C2, amended: resolution priority holds as claimed, except that the
version file's contents are used with only the FIRST newline sequence
removed (`replace(/\r?\n/, "")`), not trimmed: a readable regular file
overrides the `version` parameter; otherwise the `version` parameter (or
its absence) stands. -/
theorem c2_resolution_priority (req : OutRequestM) (env : Env) (p : String) :
    (req.params.version_file = some p → env.versionFileKind = FileKind.file →
      resolveVersionEv req env =
        ([Event.readVersionFile], Except.ok (some (rmFirstNewline env.versionFileContents)))) ∧
    (req.params.version_file = none →
      resolveVersionEv req env = ([], Except.ok req.params.version)) ∧
    (req.params.version_file = some p →
      env.versionFileKind = FileKind.dir ∨ env.versionFileKind = FileKind.other →
      resolveVersionEv req env = ([], Except.ok req.params.version)) := by
  refine ⟨?_, ?_, ?_⟩
  · intro hvf hk
    simp [resolveVersionEv, hvf, hk]
  · intro hvf
    simp [resolveVersionEv, hvf]
  · intro hvf hk
    rcases hk with hk | hk <;> simp [resolveVersionEv, hvf, hk]

/-- C2, witness for the amended theorem at the concrete fixture. -/
theorem c2_resolution_priority_witness :
    resolveVersionEv c2Req c2Env = ([Event.readVersionFile], Except.ok (some "1.0.0\n")) :=
  (c2_resolution_priority c2Req c2Env "version.txt").1 rfl rfl

/-- C3: with a resolved version and a configured `source.version_range`, a
failing semver check aborts with exit 104 on a trace containing no
packaging, registration, or network event (only the version-file read may
have happened); a passing check continues into the rest of the pipeline. -/
theorem c3_range_gate (req : OutRequestM) (env : Env) (v r : String)
    (hres : (resolveVersionEv req env).2 = Except.ok (some v))
    (hr : req.source.version_range = some r) :
    (env.satisfies v r = false →
      out req env = ((resolveVersionEv req env).1, Outcome.exit 104) ∧
      ∀ e ∈ (resolveVersionEv req env).1, e = Event.readVersionFile) ∧
    (env.satisfies v r = true →
      out req env = outAfterRange req env (resolveVersionEv req env).1 (some v)) := by
  rcases hpp : resolveVersionEv req env with ⟨evs0, res⟩
  rw [hpp] at hres
  simp only at hres
  subst hres
  refine ⟨fun hsat => ⟨?_, ?_⟩, fun hsat => ?_⟩
  · simp [out, hpp, outFromVersion, hr, hsat]
  · intro e he
    exact resolveVersionEv_events req env e (by rw [hpp]; exact he)
  · simp [out, hpp, outFromVersion, hr, hsat]

/-- C3, witness: explicit version `2.0.0`, range `^1.0.0`, the semver
library rejecting, gives exit 104 with an empty trace. -/
theorem c3_range_gate_witness : out c3Req c3Env = ([], Outcome.exit 104) :=
  ((c3_range_gate c3Req c3Env "2.0.0" "^1.0.0" rfl rfl).1 rfl).1

/-- C10: a `version_file` path that exists but is not a regular file (a
directory, or any other non-file kind) is silently skipped: resolution
falls back to the `version` parameter and the whole run is identical to
the run of the same request without `version_file`. -/
theorem c10_versionfile_nonfile (req : OutRequestM) (env : Env) (p : String)
    (hvf : req.params.version_file = some p)
    (hk : env.versionFileKind = FileKind.dir ∨ env.versionFileKind = FileKind.other) :
    (resolveVersionEv req env).2 = Except.ok req.params.version ∧
    out req env = out { req with params := { req.params with version_file := none } } env := by
  constructor
  · rcases hk with hk | hk <;> simp [resolveVersionEv, hvf, hk]
  · have h0 : out req env = outFromVersion req env [] req.params.version := by
      rcases hk with hk | hk <;> simp [out, resolveVersionEv, hvf, hk]
    have h1 : out { req with params := { req.params with version_file := none } } env =
        outFromVersion { req with params := { req.params with version_file := none } } env
          [] req.params.version := by
      simp [out, resolveVersionEv]
    rw [h0, h1]
    obtain ⟨src, prm⟩ := req
    rfl

/-- C10, witness at a concrete fixture (version file path is a directory). -/
theorem c10_versionfile_nonfile_witness :
    out c2Req { c2Env with versionFileKind := FileKind.dir } =
      out { c2Req with params := { c2Req.params with version_file := none } }
        { c2Env with versionFileKind := FileKind.dir } :=
  (c10_versionfile_nonfile c2Req { c2Env with versionFileKind := FileKind.dir }
    "version.txt" rfl (Or.inl rfl)).2

/-- C4, counterexample: with `sign=true` and BOTH `key_data` and
`key_file` set ("not exactly one"), the run does not fail with the
configuration error: the key import is attempted and the pipeline
proceeds. This refutes "exactly one of key_data or key_file must be set,
and otherwise the pipeline fails". -/
theorem c4_both_keys_accepted :
    c4Req.params.sign = some true ∧
    c4Req.params.key_data ≠ none ∧
    c4Req.params.key_file ≠ none ∧
    Event.gpgImport ∈ (out c4Req c4Env).1 ∧
    (out c4Req c4Env).2 ≠ Outcome.exit 332 := by
  refine ⟨rfl, by decide, by decide, by decide, by decide⟩

/-- C4, amended: in the directory-packaging branch, signing (the gpg
import) is attempted iff `sign` is `true` and at least one of `key_data`
or `key_file` is set; when `sign` is `true` and BOTH are absent the run
exits 332 with an empty trace (no subprocess of the packaging stage was
spawned); when `sign` is not `true` no keyring events occur at all. -/
theorem c4_sign_gate (req : OutRequestM) (env : Env)
    (h1 : req.params.version_file = none)
    (h2 : req.source.version_range = none)
    (h3 : req.params.dependency_repos = none)
    (h4 : env.chartKind = FileKind.dir) :
    (req.params.sign = some true →
      req.params.key_data = none → req.params.key_file = none →
      out req env = ([], Outcome.exit 332)) ∧
    (req.params.sign = some true →
      ¬(req.params.key_data = none ∧ req.params.key_file = none) →
      Event.gpgImport ∈ (out req env).1) ∧
    (req.params.sign ≠ some true →
      Event.gpgImport ∉ (out req env).1 ∧ Event.mkGpgHome ∉ (out req env).1) := by
  rw [out_reach_chart req env h1 h2 h3]
  refine ⟨?_, ?_, ?_⟩
  · intro hs hkd hkf
    simp [chartStage, h4, signArgs, hs, hkd, hkf]
  · intro hs hk
    cases hgpg : importGpgKeyResult env.gpgExitCode env.gpgStderr with
    | error e =>
      simp [chartStage, h4, signArgs, hs, hk, hgpg]
    | ok id =>
      cases hpk : env.packageOk with
      | false => simp [chartStage, h4, signArgs, hs, hk, hgpg, hpk]
      | true =>
        obtain ⟨t, ht, hg1, hg2, hg3, hg4⟩ := afterPackage_trace req env
          [Event.mkGpgHome, Event.gpgImport, Event.deleteGpgHome, Event.helmPackage]
          (env.tmpDirPath ++ "/" ++ env.chartName ++ "-" ++
            ((req.params.version).getD env.chartDeclaredVersion) ++ ".tgz")
        simp [chartStage, h4, signArgs, hs, hk, hgpg, hpk, ht]
  · intro hs
    cases hpk : env.packageOk with
    | false => simp [chartStage, h4, signArgs, hs, hpk]
    | true =>
      obtain ⟨t, ht, hg1, hg2, hg3, hg4⟩ := afterPackage_trace req env
        [Event.helmPackage]
        (env.tmpDirPath ++ "/" ++ env.chartName ++ "-" ++
          ((req.params.version).getD env.chartDeclaredVersion) ++ ".tgz")
      simp [chartStage, h4, signArgs, hs, hpk, ht, hg1, hg2]

/-- C4, witness for the amended theorem: `sign=true` with neither key
source set exits 332 with an empty trace. -/
theorem c4_sign_gate_witness : out c4bReq c4Env = ([], Outcome.exit 332) :=
  (c4_sign_gate c4bReq c4Env rfl rfl rfl rfl).1 rfl rfl rfl

/-- C5: whenever the Signer is entered (directory branch, `sign=true`, at
least one key source), the keyring events occur as the consecutive block
create/import/delete at the head of the stage trace: on import failure the
run ends (exit 1) right after the deletion, with no packaging; on success
the packaging command runs strictly after the deletion. In both cases the
ephemeral keyring directory has been deleted when the Signer completes. -/
theorem c5_keyring_cleanup (req : OutRequestM) (env : Env)
    (h1 : req.params.version_file = none)
    (h2 : req.source.version_range = none)
    (h3 : req.params.dependency_repos = none)
    (h4 : env.chartKind = FileKind.dir)
    (hs : req.params.sign = some true)
    (hk : ¬(req.params.key_data = none ∧ req.params.key_file = none)) :
    (∀ e, importGpgKeyResult env.gpgExitCode env.gpgStderr = Except.error e →
      out req env =
        ([Event.mkGpgHome, Event.gpgImport, Event.deleteGpgHome], Outcome.exit 1)) ∧
    (∀ id, importGpgKeyResult env.gpgExitCode env.gpgStderr = Except.ok id →
      ∃ t, (out req env).1 =
          Event.mkGpgHome :: Event.gpgImport :: Event.deleteGpgHome ::
            Event.helmPackage :: t ∧
        Event.deleteGpgHome ∉ t ∧ Event.mkGpgHome ∉ t) := by
  rw [out_reach_chart req env h1 h2 h3]
  constructor
  · intro e hgpg
    simp [chartStage, h4, signArgs, hs, hk, hgpg]
  · intro id hgpg
    cases hpk : env.packageOk with
    | false =>
      refine ⟨[], ?_, by simp, by simp⟩
      simp [chartStage, h4, signArgs, hs, hk, hgpg, hpk]
    | true =>
      obtain ⟨t, ht, hg1, hg2, hg3, hg4⟩ := afterPackage_trace req env
        [Event.mkGpgHome, Event.gpgImport, Event.deleteGpgHome, Event.helmPackage]
        (env.tmpDirPath ++ "/" ++ env.chartName ++ "-" ++
          ((req.params.version).getD env.chartDeclaredVersion) ++ ".tgz")
      refine ⟨t, ?_, hg3, hg2⟩
      simp [chartStage, h4, signArgs, hs, hk, hgpg, hpk, ht]

/-- C5, witness: at the concrete signing fixture the first four trace
events are exactly create-keyring, import, delete-keyring, package. -/
theorem c5_keyring_cleanup_witness :
    (out c4Req c4Env).1.take 4 =
      [Event.mkGpgHome, Event.gpgImport, Event.deleteGpgHome, Event.helmPackage] := by
  obtain ⟨t, ht, hd1, hd2⟩ :=
    (c5_keyring_cleanup c4Req c4Env rfl rfl rfl rfl rfl (by decide)).2 "ABC123" rfl
  rw [ht]
  rfl

/-- C6, counterexample: on gpg output whose FIRST line containing
`secret key imported` does not match the anchored pattern while a LATER
line does, the claim's reading ("the first line matching the pattern is
captured") yields `ABC`, but the code rejects with the regex-failure
diagnostic. -/
theorem c6_first_line_wins :
    claimKeyCapture c6Stderr = some "ABC" ∧
    importGpgKeyResult 0 c6Stderr = Except.error ImportError.regexFailure :=
  ⟨rfl, rfl⟩

/-- C6, amended: a nonzero exit code is fatal with the import-failed
diagnostic; with exit code zero the FIRST line CONTAINING the substring
`secret key imported` is selected — no line at all is the distinct
identifier-not-found failure, and a selected line that does not match the
anchored pattern `gpg: key <id>: secret key imported` is a third distinct
regex failure (never a silent skip); when the selected line matches, the
captured middle is the key identifier, and a line matches with capture
`id` exactly when it is literally `gpg: key ` ++ id ++
`: secret key imported`. -/
theorem c6_import_parse (code : Int) (s : String) :
    (code ≠ 0 → importGpgKeyResult code s = Except.error (ImportError.importFailed code)) ∧
    (code = 0 →
      ((splitLines s).find? (fun l => containsSeq ("secret key imported".toList) l) = none →
        importGpgKeyResult code s = Except.error ImportError.lineNotFound) ∧
      (∀ l, (splitLines s).find? (fun l2 => containsSeq ("secret key imported".toList) l2) = some l →
        (matchKeyLine l = none →
          importGpgKeyResult code s = Except.error ImportError.regexFailure) ∧
        (∀ id, matchKeyLine l = some id →
          importGpgKeyResult code s = Except.ok (String.mk id)))) ∧
    (∀ l id, matchKeyLine l = some id ↔ l = gpgKeyPre ++ id ++ gpgKeySuf) := by
  refine ⟨?_, ?_, fun l id => matchKeyLine_eq_some_iff l id⟩
  · intro hc
    simp [importGpgKeyResult, hc]
  · intro hc0
    subst hc0
    refine ⟨?_, ?_⟩
    · intro hf
      simp only [importGpgKeyResult]
      rw [hf]
      simp
    · intro l hf
      refine ⟨?_, ?_⟩
      · intro hm
        simp only [importGpgKeyResult]
        rw [hf]
        simp [hm]
      · intro id hm
        simp only [importGpgKeyResult]
        rw [hf]
        simp [hm]

/-- C6, witness for the amended theorem: a canonical gpg success line
yields its key identifier. -/
theorem c6_import_parse_witness :
    importGpgKeyResult 0 "gpg: key ABC123: secret key imported" = Except.ok "ABC123" :=
  (((c6_import_parse 0 "gpg: key ABC123: secret key imported").2.1 rfl).2
    ("gpg: key ABC123: secret key imported".toList) rfl).2 ("ABC123".toList) rfl

/-- C7: the POST the run issues carries exactly the body and extra headers
produced by `shapeUpload`, which is a pure function of the `harbor_api`
flag: `some true` gives a multipart body with no caller-set headers;
anything else gives the raw archive stream with a `Content-length` equal
to the archive's byte size and a `Content-Disposition` attachment whose
filename is the archive's base name. -/
theorem c7_upload_shaping (req : OutRequestM) (env : Env) (w : String)
    (h1 : req.params.version_file = none)
    (h2 : req.source.version_range = none)
    (h3 : req.params.dependency_repos = none)
    (h4 : env.chartKind = FileKind.file)
    (h5 : env.inspectOk = true)
    (h6 : inspectVersionOpt env.inspectStdout = some (some w)) :
    (Event.httpPost
        (req.source.server_url ++ (if req.params.force = some true then "?force=true" else ""))
        (createFetchHeaders req ++
          (shapeUpload req.source.harbor_api req.params.chart env.chartFileSize).extraHeaders)
        (shapeUpload req.source.harbor_api req.params.chart env.chartFileSize).body
      ∈ (out req env).1) ∧
    (req.source.harbor_api = some true →
      shapeUpload req.source.harbor_api req.params.chart env.chartFileSize =
        { body := UploadBody.multipart "chart" req.params.chart, extraHeaders := [] }) ∧
    (req.source.harbor_api ≠ some true →
      shapeUpload req.source.harbor_api req.params.chart env.chartFileSize =
        { body := UploadBody.rawStream req.params.chart,
          extraHeaders := [
            Header.contentLength (toString env.chartFileSize),
            Header.contentDisposition
              ("attachment; filename=\"" ++ baseName req.params.chart ++ "\"")] }) := by
  rw [out_reach_upload req env w h1 h2 h3 h4 h5 h6]
  refine ⟨?_, ?_, ?_⟩
  · cases h : handlePostResult env.postStatus env.postJson with
    | some code => simp [uploadStage, h]
    | none =>
      cases hg : env.getOk with
      | false => simp [uploadStage, h, hg]
      | true =>
        cases hv : verifyAndRespond req.source.harbor_api (some w) env.chartJson with
        | error c => simp [uploadStage, h, hg, hv]
        | ok resp => simp [uploadStage, h, hg, hv]
  · intro hh
    simp [shapeUpload, hh]
  · intro hh
    simp [shapeUpload, hh]

/-- C7, witness at the concrete plain-dialect fixture. -/
theorem c7_upload_shaping_witness :
    Event.httpPost "http://cm/api/charts"
        [Header.contentLength "512",
         Header.contentDisposition "attachment; filename=\"chart-dir\""]
        (UploadBody.rawStream "chart-dir")
      ∈ (out c1Req envBase).1 := by
  exact (c7_upload_shaping c1Req envBase "2.0.0" rfl rfl rfl rfl rfl rfl).1

/-- C8: a non-201 upload status aborts with the HTTP status propagated as
the exit code; a 201 whose body has a non-null `error` aborts with the
distinct exit 602; a 201 without `error` whose `saved` is not strictly
`true` aborts with the distinct exit 603; and only a 201 with no error and
`saved` strictly `true` proceeds to the verification GET. -/
theorem c8_upload_response (req : OutRequestM) (env : Env) (w : String)
    (h1 : req.params.version_file = none)
    (h2 : req.source.version_range = none)
    (h3 : req.params.dependency_repos = none)
    (h4 : env.chartKind = FileKind.file)
    (h5 : env.inspectOk = true)
    (h6 : inspectVersionOpt env.inspectStdout = some (some w)) :
    (env.postStatus ≠ 201 → (out req env).2 = Outcome.exit env.postStatus) ∧
    (env.postStatus = 201 → looseNonNull env.postJson.error = true →
      (out req env).2 = Outcome.exit 602) ∧
    (env.postStatus = 201 → looseNonNull env.postJson.error = false →
      env.postJson.saved ≠ some (JsVal.bool true) →
      (out req env).2 = Outcome.exit 603) ∧
    (env.postStatus = 201 → looseNonNull env.postJson.error = false →
      env.postJson.saved = some (JsVal.bool true) →
      ∃ u hdrs, Event.httpGet u hdrs ∈ (out req env).1) := by
  rw [out_reach_upload req env w h1 h2 h3 h4 h5 h6]
  refine ⟨?_, ?_, ?_, ?_⟩
  · intro hst
    simp [uploadStage, handlePostResult, hst]
  · intro hst he
    simp [uploadStage, handlePostResult, hst, he]
  · intro hst he hsv
    simp [uploadStage, handlePostResult, hst, he, hsv]
  · intro hst he hsv
    refine ⟨req.source.server_url ++ "/" ++ req.source.chart_name ++ "/" ++ w,
      createFetchHeaders req, ?_⟩
    cases hg : env.getOk with
    | false => simp [uploadStage, handlePostResult, hst, he, hsv, hg, jsShowOpt]
    | true =>
      cases hv : verifyAndRespond req.source.harbor_api (some w) env.chartJson with
      | error c => simp [uploadStage, handlePostResult, hst, he, hsv, hg, hv, jsShowOpt]
      | ok resp => simp [uploadStage, handlePostResult, hst, he, hsv, hg, hv, jsShowOpt]

/-- C8, witness: a 409 upload response propagates 409 as the exit code. -/
theorem c8_upload_response_witness : (out c1Req c8Env).2 = Outcome.exit 409 :=
  (c8_upload_response c1Req c8Env "2.0.0" rfl rfl rfl rfl rfl rfl).1 (by decide)

/-- C9: after a successful upload the verification GET targets
`{server_url}/{chart_name}/{inspected version}` with freshly built
headers (no content headers); the dialect-appropriate version field of
the decoded body (nested under `metadata` for Harbor, flat otherwise)
must equal the effective version, any other value exiting 203; and on
match the output is the `{version, digest}` pair plus the ordered
metadata list: `created`, `description`, `appVersion` for Harbor (no
`home`/`tillerVersion`), and `created`, `description`, `appVersion`,
`home`, `tillerVersion` for the plain dialect. -/
theorem c9_publish_verifier (req : OutRequestM) (env : Env) (w : String)
    (h1 : req.params.version_file = none)
    (h2 : req.source.version_range = none)
    (h3 : req.params.dependency_repos = none)
    (h4 : env.chartKind = FileKind.file)
    (h5 : env.inspectOk = true)
    (h6 : inspectVersionOpt env.inspectStdout = some (some w))
    (hst : env.postStatus = 201)
    (he : looseNonNull env.postJson.error = false)
    (hsv : env.postJson.saved = some (JsVal.bool true))
    (hg : env.getOk = true) :
    (Event.httpGet (req.source.server_url ++ "/" ++ req.source.chart_name ++ "/" ++ w)
        (createFetchHeaders req) ∈ (out req env).1) ∧
    (req.source.harbor_api = some true →
      (env.chartJson.metadata.version ≠ w → (out req env).2 = Outcome.exit 203) ∧
      (env.chartJson.metadata.version = w → (out req env).2 = Outcome.success {
        version := { version := env.chartJson.metadata.version,
                     digest := env.chartJson.metadata.digest },
        metadata := [
          { name := "created", value := env.chartJson.metadata.created },
          { name := "description", value := env.chartJson.metadata.description },
          { name := "appVersion", value := env.chartJson.appVersion }] })) ∧
    (req.source.harbor_api ≠ some true →
      (env.chartJson.version ≠ w → (out req env).2 = Outcome.exit 203) ∧
      (env.chartJson.version = w → (out req env).2 = Outcome.success {
        version := { version := env.chartJson.version, digest := env.chartJson.digest },
        metadata := [
          { name := "created", value := env.chartJson.created },
          { name := "description", value := env.chartJson.description },
          { name := "appVersion", value := env.chartJson.appVersion },
          { name := "home", value := env.chartJson.home },
          { name := "tillerVersion", value := env.chartJson.tillerVersion }] })) := by
  rw [out_reach_upload req env w h1 h2 h3 h4 h5 h6]
  refine ⟨?_, ?_, ?_⟩
  · cases hv : verifyAndRespond req.source.harbor_api (some w) env.chartJson with
    | error c => simp [uploadStage, handlePostResult, hst, he, hsv, hg, hv, jsShowOpt]
    | ok resp => simp [uploadStage, handlePostResult, hst, he, hsv, hg, hv, jsShowOpt]
  · intro hh
    constructor
    · intro hne
      have hv : verifyAndRespond req.source.harbor_api (some w) env.chartJson =
          Except.error 203 := by
        simp [verifyAndRespond, hh]
        intro hc
        exact absurd hc.symm hne
      simp [uploadStage, handlePostResult, hst, he, hsv, hg, hv]
    · intro heq
      have hv : verifyAndRespond req.source.harbor_api (some w) env.chartJson =
          Except.ok {
            version := { version := env.chartJson.metadata.version,
                         digest := env.chartJson.metadata.digest },
            metadata := [
              { name := "created", value := env.chartJson.metadata.created },
              { name := "description", value := env.chartJson.metadata.description },
              { name := "appVersion", value := env.chartJson.appVersion }] } := by
        simp [verifyAndRespond, hh, heq]
      simp [uploadStage, handlePostResult, hst, he, hsv, hg, hv]
  · intro hh
    constructor
    · intro hne
      have hv : verifyAndRespond req.source.harbor_api (some w) env.chartJson =
          Except.error 203 := by
        simp [verifyAndRespond, hh]
        intro hc
        exact absurd hc.symm hne
      simp [uploadStage, handlePostResult, hst, he, hsv, hg, hv]
    · intro heq
      have hv : verifyAndRespond req.source.harbor_api (some w) env.chartJson =
          Except.ok {
            version := { version := env.chartJson.version, digest := env.chartJson.digest },
            metadata := [
              { name := "created", value := env.chartJson.created },
              { name := "description", value := env.chartJson.description },
              { name := "appVersion", value := env.chartJson.appVersion },
              { name := "home", value := env.chartJson.home },
              { name := "tillerVersion", value := env.chartJson.tillerVersion }] } := by
        simp [verifyAndRespond, hh, heq]
      simp [uploadStage, handlePostResult, hst, he, hsv, hg, hv]

/-- C9, witness: the plain-dialect fixture's round trip matches and
produces the five-entry metadata list. -/
theorem c9_publish_verifier_witness :
    (out c1Req envBase).2 = Outcome.success {
      version := { version := "2.0.0", digest := "d1" },
      metadata := [
        { name := "created", value := "c1" },
        { name := "description", value := "desc" },
        { name := "appVersion", value := "a1" },
        { name := "home", value := "h1" },
        { name := "tillerVersion", value := "t1" }] } :=
  ((c9_publish_verifier c1Req envBase "2.0.0"
    rfl rfl rfl rfl rfl rfl rfl rfl rfl rfl).2.2 (by decide)).2 rfl

end ChartMuseum
